import Mathlib

/-!
Verification of the claude-recall retrieval core: a shallow embedding of
`scripts/search_index.py`, `scripts/telemetry/collector.py`,
`scripts/smart_recall.py` and `scripts/redact_secrets.py`, together with
theorems settling the specification claims about them.

Modelling conventions:
* Python floats are modelled by an arbitrary linear ordered field `α`
  (instantiated at `ℝ` where properties of `exp` matter and at `ℚ` for
  concrete executable runs).  `np.exp` and the external embedding model
  are fields of an `Env` record.
* Python dicts that hold telemetry events are modelled by the JSON-like
  type `JVal`; dict assignment keeps the original key position
  (insertion order), new keys are appended, exactly as in CPython.
* File input is modelled by `IndexFile`: a missing file, a file whose
  JSON parse raises, or a parsed index.  The `except Exception` handler
  of `search_sessions` is the `.malformed` branch.
* Timestamps are modelled as already-parsed epoch seconds
  (`Option Int`); `none` stands for a missing or unparseable capture
  time, which the source maps to the neutral score `0.5`.
* Wall-clock latency fields written into telemetry are modelled as `0`;
  they are environment-dependent and no claim mentions them.
-/

namespace Recall

/-- JSON-like values, the model of the Python dicts stored in the
telemetry log.  `α` is the number type (the model of Python floats). -/
inductive JVal (α : Type) where
  | null : JVal α
  | jstr (s : String) : JVal α
  | jnum (x : α) : JVal α
  | jbool (b : Bool) : JVal α
  | jarr (elems : List (JVal α)) : JVal α
  | jobj (fields : List (String × JVal α)) : JVal α

variable {α : Type} {β : Type}

/-- First value bound to key `k` in an association list (Python dict lookup). -/
def lookupA (l : List (String × β)) (k : String) : Option β :=
  match l with
  | [] => none
  | kv :: rest => if kv.1 = k then some kv.2 else lookupA rest k

/-- Python dict assignment `d[k] = v`: replace in place (keeping the key's
position) when the key exists, append otherwise. -/
def setA (l : List (String × β)) (k : String) (v : β) : List (String × β) :=
  match l with
  | [] => [(k, v)]
  | kv :: rest => if kv.1 = k then (k, v) :: rest else kv :: setA rest k v

/-- `TelemetryCollector._deep_merge`: merge `source` into `target`; nested
dicts merge recursively, any other value overwrites. -/
def deepMergeFields : List (String × JVal α) → List (String × JVal α) → List (String × JVal α)
  | t, [] => t
  | t, (k, JVal.jobj sf) :: rest =>
    (match lookupA t k with
     | some (JVal.jobj tf) => deepMergeFields (setA t k (JVal.jobj (deepMergeFields tf sf))) rest
     | some JVal.null | some (JVal.jstr _) | some (JVal.jnum _) | some (JVal.jbool _)
     | some (JVal.jarr _) | none => deepMergeFields (setA t k (JVal.jobj sf)) rest)
  | t, (k, JVal.null) :: rest => deepMergeFields (setA t k JVal.null) rest
  | t, (k, JVal.jstr s) :: rest => deepMergeFields (setA t k (JVal.jstr s)) rest
  | t, (k, JVal.jnum x) :: rest => deepMergeFields (setA t k (JVal.jnum x)) rest
  | t, (k, JVal.jbool b) :: rest => deepMergeFields (setA t k (JVal.jbool b)) rest
  | t, (k, JVal.jarr a) :: rest => deepMergeFields (setA t k (JVal.jarr a)) rest

/-- Field of a JSON object (`none` on non-objects and absent keys). -/
def jfield (v : JVal α) (k : String) : Option (JVal α) :=
  match v with
  | JVal.jobj fields => lookupA fields k
  | _ => none

/-- The state of `TelemetryCollector` (collector.py).  `fresh` models the
`uuid.uuid4()` generator deterministically; `timestamp` models
`datetime.now(timezone.utc).isoformat()`; `log` is the sequence of records
handed to the JSONL writer, in order. -/
structure Collector (α : Type) where
  enabled : Bool
  redactor : Option (String → String)
  fresh : Nat
  timestamp : String
  current_events : List (String × List (String × JVal α))
  log : List (JVal α)

/-- Redaction applied to a `query` entry of a context dict, as in
`TelemetryCollector.start_event` lines 112-116 / `log_event` lines 197-201:
a dict query has its `raw_query` string redacted, a bare string query is
redacted, anything else is left alone. -/
def redactQueryCtx (red : Option (String → String)) (ctx : List (String × JVal α)) :
    List (String × JVal α) :=
  match red with
  | none => ctx
  | some r =>
    match lookupA ctx "query" with
    | some (JVal.jobj qf) =>
      match lookupA qf "raw_query" with
      | some (JVal.jstr s) => setA ctx "query" (JVal.jobj (setA qf "raw_query" (JVal.jstr (r s))))
      | _ => ctx
    | some (JVal.jstr s) => setA ctx "query" (JVal.jstr (r s))
    | _ => ctx

/-- The event dict built by `start_event`:
`event = dict(event_id=..., timestamp=..., event_type=..., **context)`. -/
def buildEvent (event_id timestamp event_type : String) (ctx : List (String × JVal α)) :
    List (String × JVal α) :=
  ctx.foldl (fun acc kv => setA acc kv.1 kv.2)
    [("event_id", JVal.jstr event_id), ("timestamp", JVal.jstr timestamp),
     ("event_type", JVal.jstr event_type)]

/-- `TelemetryCollector.start_event`: register an in-flight event (redacting
the query), returning the new state and the event id (`none` when the
collector is disabled). -/
def start_event (c : Collector α) (event_type : String) (ctx : List (String × JVal α)) :
    Collector α × Option String :=
  if c.enabled = false then (c, none)
  else
    let event_id := toString c.fresh
    let ctx := redactQueryCtx c.redactor ctx
    let ev := buildEvent event_id c.timestamp event_type ctx
    ({ c with fresh := c.fresh + 1,
              current_events := setA c.current_events event_id ev }, some event_id)

/-- `TelemetryCollector.update_event`: deep-merge `data` into the in-flight
event; a no-op when disabled, when the id is `None`, or when the id is not
in flight.  Note: no redaction happens on this ingress path. -/
def update_event (c : Collector α) (event_id : Option String)
    (data : List (String × JVal α)) : Collector α :=
  if c.enabled = false then c
  else
    match event_id with
    | none => c
    | some eid =>
      match lookupA c.current_events eid with
      | none => c
      | some ev =>
        { c with current_events := setA c.current_events eid (deepMergeFields ev data) }

/-- Removal of a key from the in-flight map (`del self.current_events[id]`). -/
def removeA (l : List (String × β)) (k : String) : List (String × β) :=
  match l with
  | [] => []
  | kv :: rest => if kv.1 = k then rest else kv :: removeA rest k

/-- `TelemetryCollector.end_event`: attach the outcome, append the event to
the log, drop it from the in-flight map. -/
def end_event (c : Collector α) (event_id : Option String) (outcome : Option (JVal α)) :
    Collector α :=
  if c.enabled = false then c
  else
    match event_id with
    | none => c
    | some eid =>
      match lookupA c.current_events eid with
      | none => c
      | some ev =>
        let ev := match outcome with
                  | some o => setA ev "outcome" o
                  | none => ev
        { c with log := c.log ++ [JVal.jobj ev],
                 current_events := removeA c.current_events eid }

/-- `TelemetryCollector.log_event`: one-shot write.  A timestamp is added
when the key is absent and any `query` entry is redacted, but no
`event_id` is ever generated. -/
def log_event (c : Collector α) (event : List (String × JVal α)) : Collector α :=
  if c.enabled = false then c
  else
    let event := if (lookupA event "timestamp").isSome then event
                 else setA event "timestamp" (JVal.jstr c.timestamp)
    let event := redactQueryCtx c.redactor event
    { c with log := c.log ++ [JVal.jobj event] }

/-- Field `k` of the `i`-th record of the collector's log. -/
def loggedField (c : Collector α) (i : Nat) (k : String) : Option (JVal α) :=
  match c.log.get? i with
  | some v => jfield v k
  | none => none

/-- One session record of the corpus index (`index.json` entry).  The
`captured` field holds the result of the source's timestamp parsing as
epoch seconds; `none` models a missing or unparseable value. -/
structure Session where
  id : String
  captured : Option Int
  summary : String
  topics : List String
  files_modified : List String
  beads_issues : List String
  bm25_tokens : List String

/-- The stored `bm25_index` blob.  The persisted format (spec section 6.1
and `index_session.py`) always stores all four statistics, and
`bm25_search` overwrites every corresponding `BM25Okapi` attribute with
the stored value, so the effective statistics are exactly these. -/
structure BM25Data (α : Type) where
  doc_len : List Nat
  avgdl : α
  doc_freqs : List (List (String × Nat))
  idf : List (String × α)

/-- The `embedding_index` metadata entry of the index. -/
structure EmbeddingMeta where
  embedding_file : String
  model : String

/-- A parsed corpus index document. -/
structure Index (α : Type) where
  sessions : List Session
  bm25_index : Option (BM25Data α)
  embedding_index : Option EmbeddingMeta

/-- The content reachable from `index_path`: no file, a file whose JSON
parse raises (the exception carried to the `except` handler), or a parsed
index. -/
structure PyError where
  message : String
  typeName : String

/-- See `PyError`. -/
inductive IndexFile (α : Type) where
  | missing : IndexFile α
  | malformed (err : PyError) : IndexFile α
  | ok (idx : Index α) : IndexFile α

/-- The process environment of a search call: the numeric `exp` function
(`np.exp`), the current instant, availability of `sentence_transformers`,
the contents of `embeddings.npz` (`none` models a missing file, a load
failure or a non-2D array), availability and behaviour of the embedding
model (`encode` returns `none` when encoding raises), `np.linalg.norm`,
and the ambient telemetry values. -/
structure Env (α : Type) where
  exp : α → α
  now : Int
  embeddings_available : Bool
  embeddings_file : Option (List (List α))
  model_available : Bool
  encode : String → Option (List α)
  vecNorm : List α → α
  current_session_id : JVal α
  system_state : List (String × JVal α)
  model_cached : Bool

/-- Arguments of `search_sessions` (with the source's defaults). -/
structure SearchArgs where
  query : String
  scope : String := "all"
  session_filter : Option String := none
  topics_filter : Option (List String) := none
  limit : Int := 5
  use_bm25 : Bool := true
  search_mode : String := "auto"

/-- One scored result dict.  The three optional score fields model keys
that are present only in some modes. -/
structure SResult (α : Type) where
  session : Session
  relevance_score : α
  bm25_score : Option α
  semantic_score : Option α
  temporal_score : Option α
  search_mode : String

/-- A word character in the sense of the `\w` class used by
`tokenize_query` and `simple_relevance_score`. -/
def isWordChar (c : Char) : Bool :=
  c.isAlphanum || c = '_'

/-- Python `str.lower()` (character-wise). -/
def strLower (s : String) : String :=
  String.mk (s.toList.map Char.toLower)

/-- Maximal runs of word characters (`re.findall` with the `\w+`
pattern); `acc` is the reversed current run. -/
def wordRuns : List Char → List Char → List String
  | [], acc => if acc.isEmpty then [] else [String.mk acc.reverse]
  | c :: cs, acc =>
    if isWordChar c then wordRuns cs (c :: acc)
    else if acc.isEmpty then wordRuns cs []
    else String.mk acc.reverse :: wordRuns cs []

/-- `tokenize_query`: lowercase, then the maximal runs of word characters. -/
def tokenize_query (query : String) : List String :=
  wordRuns (strLower query).toList []

/-- Python's substring test `needle in hay`. -/
def strIn (needle hay : String) : Bool :=
  (List.range (hay.toList.length + 1)).any
    (fun i => needle.toList.isPrefixOf (hay.toList.drop i))

section Scoring

variable [LinearOrderedField α]

/-- `calculate_temporal_score` with the default 30-day half life:
`exp(-age_days / 30)` for a parsed capture time, `0.5` otherwise. -/
def calculate_temporal_score (env : Env α) (s : Session) : α :=
  match s.captured with
  | none => 1/2
  | some t => env.exp (-((((env.now - t : Int) : α) / 86400) / 30))

/-- `BM25Okapi.get_scores` on the stored statistics with `k1 = 1.5` and
`b = 0.75`.  `none` models the
numpy broadcast `ValueError` raised when the stored arrays do not match
the corpus size (caught in `bm25_search` and mapped to the
temporal-score fallback). -/
def okapi_get_scores (bm : BM25Data α) (n : Nat) (query : List String) : Option (List α) :=
  if bm.doc_len.length = n ∧ bm.doc_freqs.length = n then
    some (query.foldl
      (fun acc q =>
        let idfq : α := (lookupA bm.idf q).getD 0
        List.zipWith
          (fun s df =>
            let qf : α := ((lookupA df.1 q).getD 0 : Nat)
            s + idfq * (qf * (3/2 + 1)) / (qf + (3/2) * (1 - 3/4 + (3/4) * (df.2 : α) / bm.avgdl)))
          acc (bm.doc_freqs.zip bm.doc_len))
      (List.replicate n (0 : α)))
  else none

/-- Python `max` over a nonempty list (the unreachable empty case is 0). -/
def pyMax (l : List α) : α :=
  match l with
  | [] => 0
  | x :: xs => xs.foldl max x

/-- Python `min` over a nonempty list (the unreachable empty case is 0). -/
def pyMin (l : List α) : α :=
  match l with
  | [] => 0
  | x :: xs => xs.foldl min x

/-- The rows built by `bm25_search` when only temporal scores are
available (empty query, all-empty corpus, or a BM25 scoring error). -/
def temporalOnly (env : Env α) (sessions : List Session) : List (SResult α) :=
  sessions.map (fun s =>
    let t := calculate_temporal_score env s
    ⟨s, t, some 0, none, some t, "bm25"⟩)

/-- The 70/30 combination rows of the main `bm25_search` path. -/
def attachScores (env : Env α) : List Session → List α → List (SResult α)
  | s :: ss, nb :: nbs =>
    let t := calculate_temporal_score env s
    ⟨s, (7/10) * nb + (3/10) * t, some nb, none, some t, "bm25"⟩ :: attachScores env ss nbs
  | _, _ => []

/-- `bm25_search`: BM25 with temporal boosting, with the source's four
fallback paths. -/
def bm25_search (env : Env α) (query : String) (index : Index α) : List (SResult α) :=
  let sessions := index.sessions
  let query_tokens := tokenize_query query
  match index.bm25_index with
  | none => sessions.map (fun s => ⟨s, 0, some 0, none, some (1/2), "bm25"⟩)
  | some bm =>
    if sessions.isEmpty then []
    else if query_tokens.isEmpty then temporalOnly env sessions
    else if (sessions.map Session.bm25_tokens).all List.isEmpty then temporalOnly env sessions
    else
      match okapi_get_scores bm sessions.length query_tokens with
      | none => temporalOnly env sessions
      | some bm25_scores =>
        let max_bm25 := if pyMax bm25_scores > 0 then pyMax bm25_scores else 1
        let normalized := bm25_scores.map (fun x => x / max_bm25)
        attachScores env sessions normalized

/-- `semantic_search`: `none` models every unavailability path of the
source (library missing, no embedding metadata, embeddings unreadable,
row-count mismatch with the (filtered) session list, model load failure,
or an exception while encoding / scoring). -/
def semantic_search (env : Env α) (query : String) (index : Index α) : Option (List α) :=
  if env.embeddings_available = false then none
  else
    match index.embedding_index with
    | none => none
    | some _meta =>
      match env.embeddings_file with
      | none => none
      | some embs =>
        if embs.length ≠ index.sessions.length then none
        else if env.model_available = false then none
        else
          match env.encode query with
          | none => none
          | some q0 =>
            let qn := q0.map (fun x => x / env.vecNorm q0)
            if embs.all (fun row => row.length = qn.length) then
              some (embs.map (fun row =>
                ((List.zipWith (fun a b => a * b) row qn).sum + 1) / 2))
            else none

/-- The per-session rows of `hybrid_search` (`for i, session in
enumerate(sessions)` with defensive indexing into `bm25_results` and the
per-session `IndexError` fallback on `semantic_scores[i]`). -/
def hybridRows (bs : List (SResult α)) (sem : Option (List α)) :
    Nat → List Session → List (SResult α)
  | _, [] => []
  | i, s :: ss =>
    let rel := match bs.get? i with
               | some r => r.relevance_score
               | none => 0
    let b := match bs.get? i with
             | some r => r.bm25_score.getD 0
             | none => 0
    let t := match bs.get? i with
             | some r => r.temporal_score.getD (1/2)
             | none => 1/2
    let row :=
      match sem with
      | some scores =>
        match scores.get? i with
        | some sc => (⟨s, (1/2) * b + (1/2) * sc, some b, some sc, some t, "hybrid"⟩ : SResult α)
        | none => ⟨s, rel, some b, none, some t, "bm25"⟩
      | none => ⟨s, rel, some b, none, some t, "bm25"⟩
    row :: hybridRows bs sem (i + 1) ss

/-- `hybrid_search`: 50/50 BM25 + semantic when dense scores are
available, per-request fall back to the BM25 rows otherwise (including
the length-mismatch re-check at lines 348-350). -/
def hybrid_search (env : Env α) (query : String) (index : Index α) : List (SResult α) :=
  let sessions := index.sessions
  let bm25_results := bm25_search env query index
  let sem0 := semantic_search env query index
  let sem := match sem0 with
             | some ss => if ss.length = sessions.length then some ss else none
             | none => none
  hybridRows bm25_results sem 0 sessions

/-- `simple_relevance_score` (legacy weighted field match, weights
summary 3, topics 2, files 1, beads 1, total 7). -/
def simple_relevance_score (query : String) (s : Session) : α :=
  let query_terms := (tokenize_query query).eraseDups
  let nq : α := (query_terms.length : Nat)
  let summary := strLower s.summary
  let score1 : α :=
    if query_terms.any (fun t => strIn t summary) then
      (((query_terms.filter (fun t => strIn t summary)).length : Nat) : α) / nq * 3
    else 0
  let topics := s.topics.map strLower
  let score2 : α :=
    if query_terms.any (fun t => topics.any (fun tp => strIn t tp)) then
      (((query_terms.filter (fun t => topics.any (fun tp => strIn t tp))).length : Nat) : α) / nq * 2
    else 0
  let files := s.files_modified.map strLower
  let score3 : α :=
    if query_terms.any (fun t => files.any (fun f => strIn t f)) then
      (((query_terms.filter (fun t => files.any (fun f => strIn t f))).length : Nat) : α) / nq * 1
    else 0
  let beads := s.beads_issues.map strLower
  let score4 : α :=
    if query_terms.any (fun t => beads.any (fun b => strIn t b)) then 1 else 0
  (score1 + score2 + score3 + score4) / 7

end Scoring

section Engine

variable [LinearOrderedField α]

/-- The filters applied at lines 554-567: substring filter on the session
id, then case-insensitive topic membership (the `scope` filter is a
no-op in the source). -/
def filteredSessions (args : SearchArgs) (sessions : List Session) : List Session :=
  let afterSession :=
    match args.session_filter with
    | none => sessions
    | some sf => sessions.filter (fun s => strIn sf s.id)
  match args.topics_filter with
  | none => afterSession
  | some topics =>
    let topics_lower := topics.map strLower
    afterSession.filter (fun s =>
      topics_lower.any (fun topic =>
        (s.topics.map strLower).contains (strLower topic)))

/-- The `filtered_index` dict built at lines 576-581. -/
def filteredIndex (args : SearchArgs) (idx : Index α) : Index α :=
  { sessions := filteredSessions args idx.sessions,
    bm25_index := idx.bm25_index,
    embedding_index := idx.embedding_index }

/-- The mode dispatch of `search_sessions` (lines 589-650): the resolved
mode together with the scored rows, or `none` for the semantic-mode
early exit that ends the event and returns the empty list. -/
def resolveScored (env : Env α) (args : SearchArgs) (fidx : Index α) :
    Option (String × List (SResult α)) :=
  if args.search_mode = "simple" then
    some ("simple", fidx.sessions.map (fun s =>
      ⟨s, simple_relevance_score args.query s, none, none, none, "simple"⟩))
  else if args.search_mode = "semantic" then
    match semantic_search env args.query fidx with
    | none => none
    | some scores =>
      some ("semantic", (fidx.sessions.zip scores).map (fun p =>
        ⟨p.1, p.2, none, some p.2, none, "semantic"⟩))
  else if args.search_mode = "hybrid" ∨ args.search_mode = "auto" then
    let has_embeddings := fidx.embedding_index.isSome ∧ env.embeddings_available
    if has_embeddings ∨ args.search_mode = "hybrid" then
      some ("hybrid", hybrid_search env args.query fidx)
    else
      some ("bm25", bm25_search env args.query fidx)
  else if args.search_mode = "bm25" then
    if args.use_bm25 ∧ fidx.bm25_index.isSome then
      some ("bm25", bm25_search env args.query fidx)
    else
      some ("simple", fidx.sessions.map (fun s =>
        ⟨s, simple_relevance_score args.query s, none, none, none, "simple"⟩))
  else
    if args.use_bm25 ∧ fidx.bm25_index.isSome then
      some ("bm25", bm25_search env args.query fidx)
    else
      some ("simple", fidx.sessions.map (fun s =>
        ⟨s, simple_relevance_score args.query s, none, none, none, "simple"⟩))

/-- The scored rows a search over `idx` sorts, for stating properties
(`[]` for the semantic-unavailable early exit). -/
def scoredOf (env : Env α) (args : SearchArgs) (idx : Index α) : List (SResult α) :=
  match resolveScored env args (filteredIndex args idx) with
  | some p => p.2
  | none => []

/-- Insertion into a descending-sorted list, after all elements with an
equal or larger key (so that the overall sort is stable, like CPython's
`list.sort(key=..., reverse=True)`). -/
def insertDesc (x : SResult α) : List (SResult α) → List (SResult α)
  | [] => [x]
  | y :: ys =>
    if y.relevance_score < x.relevance_score then x :: y :: ys
    else y :: insertDesc x ys

/-- Stable sort by `relevance_score` descending
(`scored.sort(key=lambda s: s['relevance_score'], reverse=True)`). -/
def sortDesc (l : List (SResult α)) : List (SResult α) :=
  l.foldl (fun acc x => insertDesc x acc) []

/-- Python's `xs[:k]`, including the negative-index case. -/
def pySliceTo (k : Int) (xs : List β) : List β :=
  if 0 ≤ k then xs.take k.toNat
  else xs.take (xs.length - (-k).toNat)

/-- The telemetry context assembled for `start_event` at lines 510-530. -/
def searchContext (args : SearchArgs) (session_id : JVal α) : List (String × JVal α) :=
  [("trigger_source", JVal.jstr "search_index"),
   ("trigger_mode", JVal.jstr "manual"),
   ("session_id", session_id),
   ("query", JVal.jobj
     [("raw_query", JVal.jstr args.query),
      ("query_length", JVal.jnum ((args.query.length : Nat) : α))]),
   ("search_config", JVal.jobj
     [("mode", JVal.jstr args.search_mode),
      ("limit", JVal.jnum ((args.limit : Int) : α)),
      ("filters", JVal.jobj
        [("scope", JVal.jstr args.scope),
         ("session_filter",
           match args.session_filter with
           | none => JVal.null
           | some sf => JVal.jstr sf),
         ("topics_filter",
           match args.topics_filter with
           | none => JVal.null
           | some ts => JVal.jarr (ts.map JVal.jstr))])])]

/-- The result/performance update written at lines 685-710.  Latency
values depend on the wall clock and are modelled as `0`. -/
def successUpdate (env : Env α) (mode_resolved : String) (results : List (SResult α)) :
    List (String × JVal α) :=
  let scores := results.map SResult.relevance_score
  let top_score : α := if results.isEmpty then 0 else pyMax scores
  let avg_score : α := if results.isEmpty then 0 else scores.sum / ((scores.length : Nat) : α)
  let min_score : α := if results.isEmpty then 0 else pyMin scores
  let dist : List (String × JVal α) :=
    [("high_0.7+", JVal.jnum (((scores.filter (fun s => 7/10 ≤ s)).length : Nat) : α)),
     ("medium_0.4-0.7", JVal.jnum
       (((scores.filter (fun s => 4/10 ≤ s ∧ s < 7/10)).length : Nat) : α)),
     ("low_<0.4", JVal.jnum (((scores.filter (fun s => s < 4/10)).length : Nat) : α))]
  let system_state := setA env.system_state "model_cached" (JVal.jbool env.model_cached)
  [("search_config", JVal.jobj [("mode_resolved", JVal.jstr mode_resolved)]),
   ("results", JVal.jobj
     [("count", JVal.jnum ((results.length : Nat) : α)),
      ("retrieved_sessions", JVal.jarr (results.map (fun r => JVal.jstr r.session.id))),
      ("scores", JVal.jobj
        [("top_score", JVal.jnum top_score),
         ("avg_score", JVal.jnum avg_score),
         ("min_score", JVal.jnum min_score),
         ("score_distribution", JVal.jobj dist)])]),
   ("performance", JVal.jobj
     [("total_latency_ms", JVal.jnum 0),
      ("breakdown", JVal.jobj
        [("index_load_ms", JVal.jnum 0),
         ("filter_ms", JVal.jnum 0),
         ("search_ms", JVal.jnum 0)]),
      ("cache_hit", JVal.jbool false),
      ("model_loaded", JVal.jbool env.model_cached)]),
   ("system_state", JVal.jobj system_state)]

/-- `search_sessions` (search_index.py lines 474-739): opens a telemetry
event, loads and filters the index, dispatches on the search mode, sorts
and truncates, records results, and closes the event.  The result
component is `Except.error e` exactly when the Python function re-raises
the exception `e` from its `except` handler; every early `return []` is
`Except.ok []`.  The background quality-evaluation thread mutates
nothing observable here and is not modelled. -/
def search_sessions (env : Env α) (args : SearchArgs) (file : IndexFile α)
    (c : Collector α) : Except PyError (List (SResult α)) × Collector α :=
  let se := start_event c "recall_triggered" (searchContext args env.current_session_id)
  let c1 := se.1
  let eid := se.2
  match file with
  | IndexFile.missing =>
    (Except.ok [],
     end_event c1 eid (some (JVal.jobj
       [("success", JVal.jbool false), ("error", JVal.jstr "index_not_found")])))
  | IndexFile.malformed err =>
    let c2 := update_event c1 eid
      [("error", JVal.jstr err.message), ("error_type", JVal.jstr err.typeName)]
    let c3 := end_event c2 eid (some (JVal.jobj [("success", JVal.jbool false)]))
    (Except.error err, c3)
  | IndexFile.ok idx =>
    let fidx := filteredIndex args idx
    match resolveScored env args fidx with
    | none =>
      (Except.ok [],
       end_event c1 eid (some (JVal.jobj
         [("success", JVal.jbool false),
          ("error", JVal.jstr "semantic_search_unavailable"),
          ("error_type", JVal.jstr "DependencyError")])))
    | some mr =>
      let results := pySliceTo args.limit (sortDesc mr.2)
      let c2 := update_event c1 eid (successUpdate env mr.1 results)
      let c3 := end_event c2 eid (some (JVal.jobj [("success", JVal.jbool true)]))
      (Except.ok results, c3)

/-- The session ids of a search result (empty on a propagated exception). -/
def resultIds (r : Except PyError (List (SResult α))) : List String :=
  match r with
  | Except.ok rs => rs.map (fun x => x.session.id)
  | Except.error _ => []

/-- The `context_analyzed` telemetry event assembled at
smart_recall.py lines 204-219 and handed to `log_event`.  The source
literally sets `"event_id": None` (with a comment claiming `log_event`
will generate it); at that point `context_text` is never `None`, so the
trigger mode is always `"manual"`. -/
def contextAnalyzedEvent (session_id : JVal α) (context_length : Nat)
    (keywords technical_terms : List String) (search_query : String)
    (analysis_time_ms : α) : List (String × JVal α) :=
  [("event_id", JVal.null),
   ("event_type", JVal.jstr "context_analyzed"),
   ("trigger_source", JVal.jstr "smart_recall"),
   ("trigger_mode", JVal.jstr "manual"),
   ("session_id", session_id),
   ("context", JVal.jobj
     [("context_length", JVal.jnum ((context_length : Nat) : α)),
      ("keywords", JVal.jarr (keywords.map JVal.jstr)),
      ("technical_terms", JVal.jarr (technical_terms.map JVal.jstr)),
      ("search_query", JVal.jstr search_query)]),
   ("performance", JVal.jobj [("analysis_time_ms", JVal.jnum analysis_time_ms)])]

end Engine

/-- `redact_secrets._truncate_evidence` over the character list of the
matched secret, at the default (and only used) `max_len = 24`.
Python's `m[-n:]` for the computed positive suffix lengths is
`drop (length - n)`; the `n = 0` case (whole string) is kept for
faithfulness although the computed lengths are never 0. -/
def truncate_evidence (m : List Char) : List Char :=
  if m.length ≤ 24 then
    if m.length ≤ 6 then m.take 2 ++ ['*', '*', '*']
    else
      let prefix_len := min 4 (m.length / 3)
      let suffix_len := min 3 (m.length / 4)
      m.take prefix_len ++ ['*', '*', '*'] ++
        (if suffix_len = 0 then m else m.drop (m.length - suffix_len))
  else
    let prefix_len := min 6 (24 / 3)
    let suffix_len := min 4 (24 / 4)
    m.take prefix_len ++ ['*', '*', '*'] ++
      (if suffix_len = 0 then m else m.drop (m.length - suffix_len))

section AssocLemmas

variable {β : Type}

@[simp]
theorem lookupA_setA_self (l : List (String × β)) (k : String) (v : β) :
    lookupA (setA l k v) k = some v := by
  induction l with
  | nil => simp [setA, lookupA]
  | cons kv rest ih =>
    by_cases h : kv.1 = k
    · simp [setA, lookupA, h]
    · simp [setA, lookupA, h, ih]

theorem lookupA_setA_ne (l : List (String × β)) (k k' : String) (v : β) (h : k' ≠ k) :
    lookupA (setA l k v) k' = lookupA l k' := by
  induction l with
  | nil => simp [setA, lookupA, Ne.symm h]
  | cons kv rest ih =>
    by_cases hk : kv.1 = k
    · subst hk
      simp [setA, lookupA, Ne.symm h]
    · by_cases hk' : kv.1 = k'
      · simp [setA, lookupA, hk, hk', h]
      · simp [setA, lookupA, hk, hk', ih]

@[simp]
theorem get?_append_len (l : List β) (x : β) : (l ++ [x]).get? l.length = some x := by
  induction l with
  | nil => rfl
  | cons y ys ih => simp [ih]

@[simp]
theorem take_append_len (l : List β) (x : β) : (l ++ [x]).take l.length = l := by
  induction l with
  | nil => rfl
  | cons y ys ih => simp [ih]

end AssocLemmas

section ClaimFixtures

/-- An environment with no dense capability, used for concrete runs. -/
def qEnv : Env ℚ :=
  { exp := fun _ => 0, now := 0, embeddings_available := false,
    embeddings_file := none, model_available := false,
    encode := fun _ => none, vecNorm := fun _ => 0,
    current_session_id := JVal.null, system_state := [], model_cached := false }

/-- A disabled collector (telemetry no-ops), used where only the result
list matters. -/
def qcOff : Collector ℚ :=
  { enabled := false, redactor := none, fresh := 0, timestamp := "T",
    current_events := [], log := [] }

/-- An enabled collector with no redactor. -/
def qcOn : Collector ℚ :=
  { enabled := true, redactor := none, fresh := 0, timestamp := "T",
    current_events := [], log := [] }

/-- A session whose summary does not mention "auth". -/
def qsA : Session :=
  { id := "a", captured := none, summary := "deploy pipeline", topics := [],
    files_modified := [], beads_issues := [], bm25_tokens := [] }

/-- A session whose summary mentions "auth". -/
def qsB : Session :=
  { id := "b", captured := none, summary := "auth login flow", topics := [],
    files_modified := [], beads_issues := [], bm25_tokens := [] }

/-- A two-session corpus with neither BM25 statistics nor embeddings. -/
def qIdxNoStats : Index ℚ :=
  { sessions := [qsA, qsB], bm25_index := none, embedding_index := none }

end ClaimFixtures

/-- Claim C1, counterexample.  With default options and a corpus index
file whose JSON parse raises, `search_sessions` does not return an empty
result list: it re-raises the exception to the caller (there is no
strict-mode opt-in; the `except` handler at search_index.py:732-739 ends
the telemetry event and then unconditionally re-raises). -/
theorem C1_counterexample :
    (search_sessions qEnv { query := "auth" }
        (IndexFile.malformed ⟨"Expecting value", "JSONDecodeError"⟩) qcOn).1 =
      Except.error ⟨"Expecting value", "JSONDecodeError"⟩
    ∧ (search_sessions qEnv { query := "auth" }
        (IndexFile.malformed ⟨"Expecting value", "JSONDecodeError"⟩) qcOn).1 ≠
      Except.ok [] := by
  constructor
  · rfl
  · intro h
    rw [show (search_sessions qEnv { query := "auth" }
        (IndexFile.malformed ⟨"Expecting value", "JSONDecodeError"⟩) qcOn).1 =
      Except.error ⟨"Expecting value", "JSONDecodeError"⟩ from rfl] at h
    exact Except.noConfusion h

/-- Claim C1, amended.  For every environment, arguments and enabled
collector, when an exception is raised inside the pipeline after the
telemetry event is opened (modelled by the malformed index file), the
exception is re-raised to the caller unconditionally (there is no
strict mode and no empty-list return), and exactly one telemetry event
is appended carrying top-level `error` and `error_type` fields and
`outcome.success = false`. -/
theorem C1_exception_reraised {α : Type} [LinearOrderedField α]
    (env : Env α) (args : SearchArgs) (c : Collector α) (err : PyError)
    (hen : c.enabled = true) :
    (search_sessions env args (IndexFile.malformed err) c).1 = Except.error err
    ∧ (search_sessions env args (IndexFile.malformed err) c).2.log.length =
        c.log.length + 1
    ∧ (search_sessions env args (IndexFile.malformed err) c).2.log.take c.log.length =
        c.log
    ∧ loggedField (search_sessions env args (IndexFile.malformed err) c).2 c.log.length
        "error" = some (JVal.jstr err.message)
    ∧ loggedField (search_sessions env args (IndexFile.malformed err) c).2 c.log.length
        "error_type" = some (JVal.jstr err.typeName)
    ∧ (loggedField (search_sessions env args (IndexFile.malformed err) c).2 c.log.length
        "outcome").bind (fun o => jfield o "success") = some (JVal.jbool false) := by
  rcases hred : c.redactor with _ | r <;>
    refine ⟨rfl, ?_, ?_, ?_, ?_, ?_⟩ <;>
      simp [search_sessions, start_event, hen, hred, redactQueryCtx, searchContext,
        buildEvent, update_event, end_event, deepMergeFields, setA, lookupA,
        jfield, loggedField, List.foldl]

/-- Witness for C1_exception_reraised at a concrete input. -/
theorem C1_witness :
    qcOn.enabled = true ∧
    ((search_sessions qEnv { query := "auth" }
        (IndexFile.malformed ⟨"boom", "KeyError"⟩) qcOn).1 =
      Except.error ⟨"boom", "KeyError"⟩) :=
  ⟨rfl, (C1_exception_reraised qEnv { query := "auth" } qcOn ⟨"boom", "KeyError"⟩ rfl).1⟩

/-- The 48-character OpenAI-style token of spec scenario S5. -/
def qSecret : String := "sk-proj-AAAAAAAAAAAAAAAAAAAAAAAAAAAAAAAAAAAAAAAA"

/-- A concrete redactor that replaces any text containing an
`sk-proj-` token with a placeholder (modelling `SecretRedactor.redact`
on such input). -/
def qRed : String → String :=
  fun s => if strIn "sk-proj-" s then "[REDACTED:openai_api_key]" else s

/-- An enabled collector holding the concrete redactor `qRed`. -/
def qcOnRed : Collector ℚ :=
  { enabled := true, redactor := some qRed, fresh := 0, timestamp := "T",
    current_events := [], log := [] }

/-- The scenario-S5 run: start a search event with an innocuous query,
then merge an update whose `query.raw_query` carries the secret, then
finalize the event. -/
def qS5Run : Collector ℚ :=
  let st := start_event qcOnRed "recall_triggered"
    (searchContext { query := "hello" } JVal.null)
  let c2 := update_event st.1 st.2
    [("query", JVal.jobj [("raw_query", JVal.jstr qSecret)])]
  end_event c2 st.2 (some (JVal.jobj [("success", JVal.jbool true)]))

/-- Claim C2, counterexample.  The telemetry update path does not
redact: after the spec-S5 update carrying the 48-char `sk-proj-` token
is merged into an event and the event is appended, the stored record
holds the original literal in `query.raw_query` — no `[REDACTED:...]`
placeholder — even though the collector's redactor would have replaced
it. -/
theorem C2_counterexample :
    (loggedField qS5Run 0 "query").bind (fun q => jfield q "raw_query") =
      some (JVal.jstr qSecret)
    ∧ qRed qSecret = "[REDACTED:openai_api_key]"
    ∧ qSecret.toList.take 8 = "sk-proj-".toList
    ∧ strIn "[REDACTED" qSecret = false := by
  refine ⟨?_, by decide, by decide, by decide⟩
  simp [qS5Run, qcOnRed, start_event, redactQueryCtx, searchContext, buildEvent,
    update_event, end_event, deepMergeFields, setA, lookupA, jfield, loggedField,
    List.foldl]

/-- Claim C2, amended.  Redaction happens on the `start_event` ingress
path (the in-flight event's `query.raw_query` is the redactor's output)
and on the `log_event` ingress path (the appended record's
`query.raw_query`, or a bare string `query`, is the redactor's output),
but not on the `update_event` path: a `query.raw_query` string merged by
an update is stored verbatim, and after `end_event` the appended record
carries that verbatim string. -/
theorem C2_update_not_redacted {α : Type} [LinearOrderedField α]
    (c : Collector α) (r : String → String) (args : SearchArgs) (sid : JVal α)
    (s : String) (hen : c.enabled = true) (hred : c.redactor = some r) :
    ((lookupA (start_event c "recall_triggered" (searchContext args sid)).1.current_events
        (toString c.fresh)).bind (fun ev =>
          (lookupA ev "query").bind (fun q => jfield q "raw_query")) =
      some (JVal.jstr (r args.query)))
    ∧ (let st := start_event c "recall_triggered" (searchContext args sid)
       let c2 := update_event st.1 st.2
         [("query", JVal.jobj [("raw_query", JVal.jstr s)])]
       let c3 := end_event c2 st.2 (some (JVal.jobj [("success", JVal.jbool true)]))
       c3.log.length = c.log.length + 1
       ∧ (loggedField c3 c.log.length "query").bind (fun q => jfield q "raw_query") =
           some (JVal.jstr s))
    ∧ ((loggedField (log_event c (searchContext args sid)) c.log.length "query").bind
        (fun q => jfield q "raw_query") = some (JVal.jstr (r args.query)))
    ∧ (loggedField (log_event c [("query", JVal.jstr s)]) c.log.length "query" =
        some (JVal.jstr (r s))) := by
  refine ⟨?_, ⟨?_, ?_⟩, ?_, ?_⟩ <;>
    simp [start_event, hen, hred, redactQueryCtx, searchContext, buildEvent,
      update_event, end_event, log_event, deepMergeFields, setA, lookupA, jfield,
      loggedField, List.foldl]

/-- Witness for C2_update_not_redacted at a concrete input. -/
theorem C2_witness :
    qcOnRed.enabled = true ∧ qcOnRed.redactor = some qRed ∧
    ((lookupA (start_event qcOnRed "recall_triggered"
        (searchContext { query := "hello" } JVal.null)).1.current_events
        (toString qcOnRed.fresh)).bind (fun ev =>
          (lookupA ev "query").bind (fun q => jfield q "raw_query")) =
      some (JVal.jstr (qRed "hello"))) :=
  ⟨rfl, rfl,
    (C2_update_not_redacted qcOnRed qRed { query := "hello" } JVal.null qSecret
      rfl rfl).1⟩

/-- Claim C4, counterexample.  When semantic mode is requested and
semantic scoring is unavailable, the result is indeed the empty list and
the event's outcome has `success = false`, but the recorded error type
is `"DependencyError"` (with `error = "semantic_search_unavailable"`),
not `"semantic_unavailable"` as the claim states. -/
theorem C4_counterexample :
    (search_sessions qEnv { query := "q", search_mode := "semantic" }
        (IndexFile.ok qIdxNoStats) qcOn).1 = Except.ok []
    ∧ loggedField (search_sessions qEnv { query := "q", search_mode := "semantic" }
        (IndexFile.ok qIdxNoStats) qcOn).2 0 "outcome" =
      some (JVal.jobj
        [("success", JVal.jbool false),
         ("error", JVal.jstr "semantic_search_unavailable"),
         ("error_type", JVal.jstr "DependencyError")])
    ∧ "DependencyError" ≠ "semantic_unavailable" := by
  refine ⟨rfl, rfl, by decide⟩

/-- Claim C4, amended.  For every query, corpus and enabled collector,
when semantic mode is requested and semantic scoring is unavailable for
the filtered corpus, search returns the empty list and appends exactly
one telemetry event whose outcome is `success = false`,
`error = "semantic_search_unavailable"`,
`error_type = "DependencyError"`. -/
theorem C4_semantic_unavailable {α : Type} [LinearOrderedField α]
    (env : Env α) (args : SearchArgs) (idx : Index α) (c : Collector α)
    (hen : c.enabled = true) (hmode : args.search_mode = "semantic")
    (hsem : semantic_search env args.query (filteredIndex args idx) = none) :
    (search_sessions env args (IndexFile.ok idx) c).1 = Except.ok []
    ∧ (search_sessions env args (IndexFile.ok idx) c).2.log.length = c.log.length + 1
    ∧ loggedField (search_sessions env args (IndexFile.ok idx) c).2 c.log.length
        "outcome" =
      some (JVal.jobj
        [("success", JVal.jbool false),
         ("error", JVal.jstr "semantic_search_unavailable"),
         ("error_type", JVal.jstr "DependencyError")]) := by
  rcases hred : c.redactor with _ | r <;>
    refine ⟨?_, ?_, ?_⟩ <;>
      simp [search_sessions, resolveScored, hmode, hsem, start_event, hen, hred,
        redactQueryCtx, searchContext, buildEvent, end_event, deepMergeFields,
        setA, lookupA, jfield, loggedField, List.foldl]

/-- Witness for C4_semantic_unavailable at a concrete input. -/
theorem C4_witness :
    qcOn.enabled = true
    ∧ ({ query := "q", search_mode := "semantic" } : SearchArgs).search_mode = "semantic"
    ∧ semantic_search qEnv "q"
        (filteredIndex { query := "q", search_mode := "semantic" } qIdxNoStats) = none
    ∧ (search_sessions qEnv { query := "q", search_mode := "semantic" }
        (IndexFile.ok qIdxNoStats) qcOn).1 = Except.ok [] :=
  ⟨rfl, rfl, rfl,
    (C4_semantic_unavailable qEnv { query := "q", search_mode := "semantic" }
      qIdxNoStats qcOn rfl rfl rfl).1⟩

/-- Claim C5, theorem at the failing input.  The `context_analyzed`
event that `smart_recall` hands to `log_event` carries
`"event_id": None`; `log_event` adds a timestamp but never generates an
event id, so the appended record's `event_id` is null (missing) even
though the source comments that it "will be generated by log_event". -/
theorem C5_event_id_null :
    (log_event qcOn (contextAnalyzedEvent (JVal.jstr "sess-1") 20 ["auth"] ["jwt"]
        "jwt auth" (0 : ℚ))).log.length = 1
    ∧ loggedField (log_event qcOn (contextAnalyzedEvent (JVal.jstr "sess-1") 20 ["auth"]
        ["jwt"] "jwt auth" (0 : ℚ))) 0 "event_id" = some JVal.null
    ∧ loggedField (log_event qcOn (contextAnalyzedEvent (JVal.jstr "sess-1") 20 ["auth"]
        ["jwt"] "jwt auth" (0 : ℚ))) 0 "event_type" =
        some (JVal.jstr "context_analyzed")
    ∧ loggedField (log_event qcOn (contextAnalyzedEvent (JVal.jstr "sess-1") 20 ["auth"]
        ["jwt"] "jwt auth" (0 : ℚ))) 0 "timestamp" = some (JVal.jstr "T") :=
  ⟨rfl, rfl, rfl, rfl⟩

/-- The real-number environment of the program: `np.exp` is `Real.exp`,
the current instant is epoch 0, no dense capability. -/
noncomputable def rEnv : Env ℝ :=
  { exp := Real.exp, now := 0, embeddings_available := false,
    embeddings_file := none, model_available := false,
    encode := fun _ => none, vecNorm := fun _ => 0,
    current_session_id := JVal.null, system_state := [], model_cached := false }

/-- A disabled real-number collector. -/
def rcOff : Collector ℝ :=
  { enabled := false, redactor := none, fresh := 0, timestamp := "T",
    current_events := [], log := [] }

/-- A session whose capture timestamp lies two days in the future. -/
def futureSession : Session :=
  { id := "future", captured := some 172800, summary := "", topics := [],
    files_modified := [], beads_issues := [], bm25_tokens := [] }

/-- A one-session corpus containing `futureSession`, with stored (empty)
BM25 statistics present. -/
noncomputable def rIdxFuture : Index ℝ :=
  { sessions := [futureSession],
    bm25_index := some { doc_len := [0], avgdl := 0, doc_freqs := [[]], idf := [] },
    embedding_index := none }

/-- Claim C6, theorem at the failing input.  For a record whose capture
timestamp is two days in the future, a bm25-mode search with an empty
query returns that record with relevance score
`exp(2 days / 30 days) = exp(1/15) > 1`, outside the claimed interval
`[0, 1]` (and contradicting the `calculate_temporal_score` docstring,
which promises a float between 0 and 1). -/
theorem C6_score_above_one :
    (search_sessions rEnv { query := "", search_mode := "bm25" }
        (IndexFile.ok rIdxFuture) rcOff).1 =
      Except.ok [⟨futureSession, calculate_temporal_score rEnv futureSession, some 0,
        none, some (calculate_temporal_score rEnv futureSession), "bm25"⟩]
    ∧ 1 < calculate_temporal_score rEnv futureSession := by
  constructor
  · rfl
  · have h1 : calculate_temporal_score rEnv futureSession =
        Real.exp (-((((0 - 172800 : Int) : ℝ)) / 86400 / 30)) := rfl
    have h2 : (-((((0 - 172800 : Int) : ℝ)) / 86400 / 30)) = 1/15 := by
      push_cast
      ring
    rw [h1, h2]
    calc (1 : ℝ) = Real.exp 0 := Real.exp_zero.symm
    _ < Real.exp (1/15) := Real.exp_lt_exp.mpr (by norm_num)

/-- The evidence string always contains an asterisk. -/
theorem star_mem_truncate_evidence (m : List Char) : '*' ∈ truncate_evidence m := by
  unfold truncate_evidence
  split
  · split
    · simp
    · simp
  · simp

/-- Claim C9, confirmed (with the candidate universe modelled from the
spec: detected secrets are drawn from the pattern catalog and
entropy-candidate alphabet described in the spec and the test fixtures,
none of which contains the character `*`).  For every such secret, the
evidence produced by `_truncate_evidence` has length strictly below 25,
never equals any substring of the secret of length at least 6 (the
evidence always contains `***` while the secret has no `*`), and for
secrets shorter than six characters it is the two-character prefix
followed by `***` with no suffix. -/
theorem C9_evidence_safe (m : List Char) (hstar : '*' ∉ m) :
    (truncate_evidence m).length < 25
    ∧ (∀ sub pre post : List Char, m = pre ++ sub ++ post → 6 ≤ sub.length →
        truncate_evidence m ≠ sub)
    ∧ (m.length < 6 → truncate_evidence m = m.take 2 ++ ['*', '*', '*']) := by
  refine ⟨?_, ?_, ?_⟩
  · unfold truncate_evidence
    by_cases h24 : m.length ≤ 24
    · by_cases h6 : m.length ≤ 6
      · rw [if_pos h24, if_pos h6]
        simp
        omega
      · rw [if_pos h24, if_neg h6]
        have hs : ¬ (3 ⊓ (m.length / 4) = 0) := by omega
        simp [hs]
        omega
    · rw [if_neg h24]
      simp
      omega
  · intro sub pre post hm hlen hev
    have h1 : '*' ∈ sub := hev ▸ star_mem_truncate_evidence m
    have h2 : '*' ∈ m := by
      rw [hm]
      simp [h1]
    exact hstar h2
  · intro h6
    unfold truncate_evidence
    rw [if_pos (by omega), if_pos (by omega)]

/-- Witness for C9_evidence_safe at a concrete input. -/
theorem C9_witness :
    ('*' ∉ ['s', 'k', '1']) ∧ (truncate_evidence ['s', 'k', '1']).length < 25 ∧
    truncate_evidence ['s', 'k', '1'] = ['s', 'k', '*', '*', '*'] :=
  ⟨by decide, (C9_evidence_safe ['s', 'k', '1'] (by decide)).1, by decide⟩

section SortLemmas

variable [LinearOrderedField α]

/-- Descending sortedness by relevance score. -/
def SortedGE (l : List (SResult α)) : Prop :=
  l.Pairwise (fun a b => b.relevance_score ≤ a.relevance_score)

theorem mem_insertDesc {x y : SResult α} {l : List (SResult α)} :
    y ∈ insertDesc x l ↔ y = x ∨ y ∈ l := by
  induction l with
  | nil => simp [insertDesc]
  | cons z zs ih =>
    by_cases h : z.relevance_score < x.relevance_score
    · simp [insertDesc, h]
      try tauto
    · simp [insertDesc, h, ih]
      try tauto

theorem sortedGE_insertDesc {x : SResult α} {l : List (SResult α)}
    (hs : SortedGE l) : SortedGE (insertDesc x l) := by
  induction l with
  | nil => simp [SortedGE, insertDesc]
  | cons y ys ih =>
    rw [SortedGE, List.pairwise_cons] at hs
    by_cases h : y.relevance_score < x.relevance_score
    · rw [SortedGE, insertDesc]
      simp only [h, if_pos]
      rw [List.pairwise_cons]
      constructor
      · intro b hb
        rcases List.mem_cons.mp hb with hb | hb
        · exact hb ▸ le_of_lt h
        · exact le_trans (hs.1 b hb) (le_of_lt h)
      · rw [List.pairwise_cons]
        exact hs
    · rw [SortedGE, insertDesc]
      simp only [h, if_neg, if_false]
      rw [List.pairwise_cons]
      constructor
      · intro b hb
        rcases mem_insertDesc.mp hb with hb | hb
        · exact hb ▸ le_of_not_lt h
        · exact hs.1 b hb
      · exact ih hs.2

theorem mem_foldl_insertDesc {y : SResult α} :
    ∀ (l acc : List (SResult α)),
      y ∈ l.foldl (fun a x => insertDesc x a) acc ↔ y ∈ acc ∨ y ∈ l := by
  intro l
  induction l with
  | nil => simp [List.foldl]
  | cons x xs ih =>
    intro acc
    rw [List.foldl_cons, ih, mem_insertDesc]
    simp
    tauto

theorem mem_sortDesc {y : SResult α} {l : List (SResult α)} :
    y ∈ sortDesc l ↔ y ∈ l := by
  rw [sortDesc, mem_foldl_insertDesc]
  simp

theorem sortedGE_foldl_insertDesc :
    ∀ (l acc : List (SResult α)), SortedGE acc →
      SortedGE (l.foldl (fun a x => insertDesc x a) acc) := by
  intro l
  induction l with
  | nil => intro acc h; exact h
  | cons x xs ih =>
    intro acc h
    rw [List.foldl_cons]
    exact ih _ (sortedGE_insertDesc h)

theorem sortedGE_sortDesc (l : List (SResult α)) : SortedGE (sortDesc l) :=
  sortedGE_foldl_insertDesc l [] (by simp [SortedGE])

theorem filter_insertDesc_ne {x : SResult α} {l : List (SResult α)} {v : α}
    (hx : x.relevance_score ≠ v) :
    (insertDesc x l).filter (fun r => decide (r.relevance_score = v)) =
      l.filter (fun r => decide (r.relevance_score = v)) := by
  induction l with
  | nil => simp [insertDesc, hx]
  | cons y ys ih =>
    by_cases h : y.relevance_score < x.relevance_score
    · simp [insertDesc, h, List.filter_cons, hx]
    · simp only [insertDesc, h, if_neg, if_false, List.filter_cons]
      rw [ih]

theorem filter_insertDesc_eq {x : SResult α} {l : List (SResult α)} {v : α}
    (hs : SortedGE l) (hx : x.relevance_score = v) :
    (insertDesc x l).filter (fun r => decide (r.relevance_score = v)) =
      l.filter (fun r => decide (r.relevance_score = v)) ++ [x] := by
  induction l with
  | nil => simp [insertDesc, hx]
  | cons y ys ih =>
    rw [SortedGE, List.pairwise_cons] at hs
    by_cases h : y.relevance_score < x.relevance_score
    · have hje : ∀ z ∈ y :: ys, z.relevance_score ≠ v := by
        intro z hz
        rcases List.mem_cons.mp hz with hz | hz
        · exact hz ▸ (by rw [← hx]; exact ne_of_lt h)
        · have := hs.1 z hz
          rw [← hx]
          exact ne_of_lt (lt_of_le_of_lt this h)
      have hfe : (y :: ys).filter (fun r => decide (r.relevance_score = v)) = [] := by
        rw [List.filter_eq_nil_iff]
        intro z hz
        simp [hje z hz]
      simp only [insertDesc, h, if_pos]
      rw [List.filter_cons, hfe]
      simp [hx]
    · simp only [insertDesc, h, if_neg, if_false, List.filter_cons]
      rw [ih hs.2]
      by_cases hy : y.relevance_score = v <;> simp [hy]

theorem filter_foldl_insertDesc {v : α} :
    ∀ (l acc : List (SResult α)), SortedGE acc →
      (l.foldl (fun a x => insertDesc x a) acc).filter
          (fun r => decide (r.relevance_score = v)) =
        acc.filter (fun r => decide (r.relevance_score = v)) ++
          l.filter (fun r => decide (r.relevance_score = v)) := by
  intro l
  induction l with
  | nil => intro acc h; simp
  | cons x xs ih =>
    intro acc h
    rw [List.foldl_cons, ih _ (sortedGE_insertDesc h), List.filter_cons]
    by_cases hx : x.relevance_score = v
    · rw [filter_insertDesc_eq h hx]
      simp [hx]
    · rw [filter_insertDesc_ne hx]
      simp [hx]

/-- Stability of the sort: the subsequence of rows carrying any fixed
score is preserved in order. -/
theorem filter_sortDesc {v : α} (l : List (SResult α)) :
    (sortDesc l).filter (fun r => decide (r.relevance_score = v)) =
      l.filter (fun r => decide (r.relevance_score = v)) := by
  rw [sortDesc, filter_foldl_insertDesc l [] (by simp [SortedGE])]
  simp

theorem pySliceTo_front (k : Int) (xs : List β) : pySliceTo k xs <+: xs := by
  unfold pySliceTo
  split <;> exact List.take_prefix _ _

end SortLemmas

section ShapeLemmas

variable [LinearOrderedField α]

/-- The shape every row of a `bm25_search` output has. -/
def Bm25Row (s : Session) (r : SResult α) : Prop :=
  r.session = s ∧ r.semantic_score = none ∧ r.search_mode = "bm25"
  ∧ r.bm25_score.isSome ∧ r.temporal_score.isSome

omit [LinearOrderedField α] in
theorem forall₂_map_self {P : Session → SResult α → Prop} {f : Session → SResult α}
    (l : List Session) (h : ∀ x ∈ l, P x (f x)) : List.Forall₂ P l (l.map f) := by
  induction l with
  | nil => simp
  | cons x xs ih =>
    rw [List.map_cons, List.forall₂_cons]
    exact ⟨h x (List.mem_cons_self x xs), ih (fun y hy => h y (List.mem_cons_of_mem x hy))⟩

theorem okapi_length {bm : BM25Data α} {n : Nat} {q : List String} {sc : List α}
    (h : okapi_get_scores bm n q = some sc) : sc.length = n := by
  unfold okapi_get_scores at h
  split at h
  · rename_i hlen
    have key : ∀ (l : List String) (acc : List α), acc.length = n →
        (l.foldl (fun acc q =>
          List.zipWith
            (fun s df =>
              let qf : α := ((lookupA df.1 q).getD 0 : Nat)
              s + ((lookupA bm.idf q).getD 0) * (qf * (3/2 + 1)) /
                (qf + (3/2) * (1 - 3/4 + (3/4) * (df.2 : α) / bm.avgdl)))
            acc (bm.doc_freqs.zip bm.doc_len)) acc).length = n := by
      intro l
      induction l with
      | nil => intro acc ha; exact ha
      | cons t ts ih =>
        intro acc ha
        rw [List.foldl_cons]
        apply ih
        rw [List.length_zipWith, List.length_zip, hlen.1, hlen.2, ha]
        simp
    rw [← Option.some_inj.mp h]
    exact key q (List.replicate n 0) (List.length_replicate n 0)
  · exact absurd h (by simp)

theorem attachScores_forall₂ (env : Env α) :
    ∀ (ss : List Session) (nbs : List α), ss.length = nbs.length →
      List.Forall₂ Bm25Row ss (attachScores env ss nbs) := by
  intro ss
  induction ss with
  | nil => intro nbs _; simp [attachScores]
  | cons s ss' ih =>
    intro nbs hlen
    match nbs with
    | [] => simp at hlen
    | nb :: nbs' =>
      rw [attachScores, List.forall₂_cons]
      refine ⟨⟨rfl, rfl, rfl, rfl, rfl⟩, ih nbs' (by simpa using hlen)⟩

/-- Every `bm25_search` output is aligned row-by-row with the session
list and carries BM25-only scoring. -/
theorem bm25_search_forall₂ (env : Env α) (q : String) (idx : Index α) :
    List.Forall₂ Bm25Row idx.sessions (bm25_search env q idx) := by
  unfold bm25_search
  match hbm : idx.bm25_index with
  | none => exact forall₂_map_self _ (fun s _ => ⟨rfl, rfl, rfl, rfl, rfl⟩)
  | some bm =>
    by_cases hemp : idx.sessions.isEmpty
    · simp only [hemp, if_pos]
      rw [List.isEmpty_iff.mp hemp]
      simp
    · simp only [hemp, if_neg, if_false]
      by_cases hq : (tokenize_query q).isEmpty
      · simp only [hq, if_pos]
        exact forall₂_map_self _ (fun s _ => ⟨rfl, rfl, rfl, rfl, rfl⟩)
      · simp only [hq, if_neg, if_false]
        by_cases hc : ((idx.sessions.map Session.bm25_tokens).all List.isEmpty)
        · simp only [hc, if_pos]
          exact forall₂_map_self _ (fun s _ => ⟨rfl, rfl, rfl, rfl, rfl⟩)
        · simp only [hc, if_neg, if_false]
          match hsc : okapi_get_scores bm idx.sessions.length (tokenize_query q) with
          | none => exact forall₂_map_self _ (fun s _ => ⟨rfl, rfl, rfl, rfl, rfl⟩)
          | some scores =>
            apply attachScores_forall₂
            rw [List.length_map, okapi_length hsc]

theorem hybridRows_of_none (bs : List (SResult α)) :
    ∀ (ss : List Session) (i : Nat),
      List.Forall₂ Bm25Row ss (bs.drop i) → hybridRows bs none i ss = bs.drop i := by
  intro ss
  induction ss with
  | nil =>
    intro i h
    rw [List.forall₂_nil_left_iff.mp h]
    rfl
  | cons s ss' ih =>
    intro i h
    rcases List.forall₂_cons_left_iff.mp h with ⟨r, rest, hr, hrest, hdrop⟩
    have hget : bs.get? i = some r := by
      have h2 := List.getElem?_drop bs i 0
      rw [hdrop] at h2
      rw [← List.get?_eq_getElem?]  at h2
      simpa using h2.symm
    have hdrop1 : bs.drop (i + 1) = rest := by
      have h2 : (bs.drop i).drop 1 = bs.drop (i + 1) := List.drop_drop 1 i bs
      rw [hdrop] at h2
      simp at h2
      exact h2.symm
    rcases hr with ⟨hses, hsem, hmode, hbval, htval⟩
    rcases Option.isSome_iff_exists.mp hbval with ⟨b0, hb0⟩
    rcases Option.isSome_iff_exists.mp htval with ⟨t0, ht0⟩
    rw [hdrop, hybridRows, hget]
    simp only [hb0, ht0, Option.getD_some]
    congr 1
    · rw [← hses, ← hsem, ← hmode, ← hb0, ← ht0]
    · rw [ih (i + 1) (hdrop1 ▸ hrest), hdrop1]

/-- When dense scores are unavailable, `hybrid_search` produces exactly
the `bm25_search` rows. -/
theorem hybrid_search_of_sem_none (env : Env α) (q : String) (idx : Index α)
    (h : semantic_search env q idx = none) :
    hybrid_search env q idx = bm25_search env q idx := by
  unfold hybrid_search
  rw [h]
  have h2 := hybridRows_of_none (bm25_search env q idx) idx.sessions 0
  rw [List.drop_zero] at h2
  exact h2 (bm25_search_forall₂ env q idx)

end ShapeLemmas

section EngineLemmas

variable [LinearOrderedField α]

/-- The result component of a search over a parsed index, expressed
through the mode dispatch. -/
theorem search_result_ok (env : Env α) (args : SearchArgs) (idx : Index α)
    (c : Collector α) :
    (search_sessions env args (IndexFile.ok idx) c).1 =
      match resolveScored env args (filteredIndex args idx) with
      | none => Except.ok []
      | some mr => Except.ok (pySliceTo args.limit (sortDesc mr.2)) := by
  rcases h : resolveScored env args (filteredIndex args idx) with _ | mr <;>
    simp [search_sessions, h]

omit [LinearOrderedField α] in
theorem mem_of_forall₂_right {P : Session → SResult α → Prop} {r : SResult α} :
    ∀ {l1 : List Session} {l2 : List (SResult α)},
      List.Forall₂ P l1 l2 → r ∈ l2 → ∃ s, P s r := by
  intro l1 l2 h
  induction h with
  | nil => intro hr; simp at hr
  | cons ha _ ih =>
    intro hr
    rcases List.mem_cons.mp hr with hr | hr
    · exact ⟨_, hr ▸ ha⟩
    · exact ih hr

end EngineLemmas

section ClaimFixtures2

/-- A two-session corpus carrying stored BM25 statistics (and no
embedding metadata). -/
def qIdxStats : Index ℚ :=
  { sessions :=
      [{ qsA with bm25_tokens := ["deploy", "pipeline"] },
       { qsB with bm25_tokens := ["auth", "login", "flow"] }],
    bm25_index := some
      { doc_len := [2, 3], avgdl := 5/2,
        doc_freqs := [[("deploy", 1), ("pipeline", 1)], [("auth", 1), ("login", 1), ("flow", 1)]],
        idf := [("auth", 1/2), ("deploy", 1/2)] },
    embedding_index := none }

/-- Sessions with equal scores for any non-matching query but distinct
capture instants: `qsA7` is older, `qsB7` newer, listed oldest first. -/
def qsA7 : Session :=
  { id := "a", captured := some 0, summary := "deploy pipeline", topics := [],
    files_modified := [], beads_issues := [], bm25_tokens := [] }

/-- See `qsA7`. -/
def qsB7 : Session :=
  { id := "b", captured := some 86400, summary := "auth login flow", topics := [],
    files_modified := [], beads_issues := [], bm25_tokens := [] }

/-- The tie-break corpus: two sessions, oldest first. -/
def qIdx7 : Index ℚ :=
  { sessions := [qsA7, qsB7], bm25_index := none, embedding_index := none }

/-- A 101-session corpus (ids "0" … "100"). -/
def qIdx101 : Index ℚ :=
  { sessions := (List.range 101).map (fun i =>
      { id := toString i, captured := none, summary := "", topics := [],
        files_modified := [], beads_issues := [], bm25_tokens := [] }),
    bm25_index := none, embedding_index := none }

/-- An environment where the embedding library and a 2-row embedding
matrix are present. -/
def qEnvEmb : Env ℚ :=
  { exp := fun _ => 0, now := 0, embeddings_available := true,
    embeddings_file := some [[1], [1]], model_available := false,
    encode := fun _ => none, vecNorm := fun _ => 0,
    current_session_id := JVal.null, system_state := [], model_cached := false }

/-- A two-session corpus carrying embedding metadata but no BM25 blob. -/
def qIdxEmb : Index ℚ :=
  { sessions := [qsA, qsB], bm25_index := none,
    embedding_index := some { embedding_file := "embeddings.npz", model := "all-MiniLM-L6-v2" } }

end ClaimFixtures2

/-- Claim C3, counterexample.  On a corpus without stored BM25
statistics, hybrid mode with dense unavailable returns the zero-score
fallback rows in corpus order, while explicit bm25 mode falls back to
legacy simple scoring and ranks the matching session first: the session
id sequences differ. -/
theorem C3_counterexample :
    resultIds (search_sessions qEnv { query := "auth", search_mode := "hybrid" }
        (IndexFile.ok qIdxNoStats) qcOff).1 = ["a", "b"]
    ∧ resultIds (search_sessions qEnv { query := "auth", search_mode := "bm25" }
        (IndexFile.ok qIdxNoStats) qcOff).1 = ["b", "a"]
    ∧ (["a", "b"] : List String) ≠ ["b", "a"] := by
  refine ⟨by decide, by with_unfolding_all decide, by decide⟩

/-- Claim C3, amended.  For every query, filter set, limit and corpus
whose index stores BM25 statistics, when hybrid mode is requested with
dense scoring unavailable (and `use_bm25` is not disabled), the returned
result list — sessions, scores and order — equals the result of the
same request in explicit bm25 mode.  (Without stored BM25 statistics
the two modes genuinely differ: explicit bm25 falls back to simple
scoring while hybrid falls back to the zero-score BM25 rows.) -/
theorem C3_hybrid_degrades_to_bm25 {α : Type} [LinearOrderedField α]
    (env : Env α) (args : SearchArgs) (idx : Index α) (c c' : Collector α)
    (hsem : semantic_search env args.query (filteredIndex args idx) = none)
    (hbm : idx.bm25_index.isSome = true) (huse : args.use_bm25 = true) :
    (search_sessions env { args with search_mode := "hybrid" } (IndexFile.ok idx) c).1 =
    (search_sessions env { args with search_mode := "bm25" } (IndexFile.ok idx) c').1 := by
  rw [search_result_ok, search_result_ok]
  have hres1 : resolveScored env { args with search_mode := "hybrid" }
      (filteredIndex { args with search_mode := "hybrid" } idx) =
      some ("hybrid", hybrid_search env args.query (filteredIndex args idx)) := by
    simp [resolveScored]
    rfl
  have hres2 : resolveScored env { args with search_mode := "bm25" }
      (filteredIndex { args with search_mode := "bm25" } idx) =
      some ("bm25", bm25_search env args.query (filteredIndex args idx)) := by
    simp only [resolveScored]
    rw [if_neg (by simp), if_neg (by simp), if_neg (by simp), if_pos (by simp),
      if_pos (⟨huse, hbm⟩ :
        ({ args with search_mode := "bm25" } : SearchArgs).use_bm25 = true ∧
        (filteredIndex { args with search_mode := "bm25" } idx).bm25_index.isSome = true)]
    rfl
  rw [hres1, hres2, hybrid_search_of_sem_none env args.query (filteredIndex args idx) hsem]

/-- Witness for C3_hybrid_degrades_to_bm25 at a concrete input. -/
theorem C3_witness :
    semantic_search qEnv "auth"
      (filteredIndex { query := "auth" } qIdxStats) = none
    ∧ qIdxStats.bm25_index.isSome = true
    ∧ ((search_sessions qEnv { query := "auth", search_mode := "hybrid" }
         (IndexFile.ok qIdxStats) qcOff).1 =
       (search_sessions qEnv { query := "auth", search_mode := "bm25" }
         (IndexFile.ok qIdxStats) qcOn).1) :=
  ⟨rfl, rfl,
    C3_hybrid_degrades_to_bm25 qEnv { query := "auth" } qIdxStats qcOff qcOn rfl rfl rfl⟩

/-- Claim C7, counterexample.  With two equal-score results whose
capture instants differ (older session first in the corpus), the
returned order keeps the corpus order: the older-captured session comes
first, not the later-captured one as the claim's tie-break demands. -/
theorem C7_counterexample :
    (search_sessions qEnv { query := "zzz", search_mode := "simple" }
        (IndexFile.ok qIdx7) qcOff).1 =
      Except.ok [⟨qsA7, 0, none, none, none, "simple"⟩,
                 ⟨qsB7, 0, none, none, none, "simple"⟩]
    ∧ qsA7.captured = some 0 ∧ qsB7.captured = some 86400
    ∧ (0 : Int) < 86400 ∧ qsA7.id = "a" ∧ qsB7.id = "b" := by
  refine ⟨by with_unfolding_all rfl, rfl, rfl, by decide, rfl, rfl⟩

/-- Claim C7, amended.  The returned result list is sorted by final
score descending; whenever two results have equal final scores they
keep their relative order from the pre-sort scored list (CPython's
stable sort) — there is no `captured_at` or `session_id` tie-break. -/
theorem C7_sorted_ties_stable {α : Type} [LinearOrderedField α]
    (env : Env α) (args : SearchArgs) (idx : Index α) (c : Collector α)
    (rs : List (SResult α)) (v : α)
    (h : (search_sessions env args (IndexFile.ok idx) c).1 = Except.ok rs) :
    rs.Pairwise (fun a b => b.relevance_score ≤ a.relevance_score)
    ∧ rs.filter (fun r => decide (r.relevance_score = v)) <+:
        (scoredOf env args idx).filter (fun r => decide (r.relevance_score = v)) := by
  rw [search_result_ok] at h
  rcases hr : resolveScored env args (filteredIndex args idx) with _ | mr
  · rw [hr] at h
    simp at h
    subst h
    exact ⟨List.Pairwise.nil, by simp⟩
  · rw [hr] at h
    simp at h
    subst h
    constructor
    · exact List.Pairwise.sublist (pySliceTo_front args.limit _).sublist
        (sortedGE_sortDesc mr.2)
    · have h1 := (pySliceTo_front args.limit (sortDesc mr.2)).filter
        (fun r => decide (r.relevance_score = v))
      rw [filter_sortDesc] at h1
      rw [scoredOf, hr]
      exact h1

/-- Witness for C7_sorted_ties_stable at a concrete input. -/
theorem C7_witness :
    ((search_sessions qEnv { query := "zzz", search_mode := "simple" }
        (IndexFile.ok qIdx7) qcOff).1 =
      Except.ok [⟨qsA7, 0, none, none, none, "simple"⟩,
                 ⟨qsB7, 0, none, none, none, "simple"⟩])
    ∧ ([⟨qsA7, 0, none, none, none, "simple"⟩,
        (⟨qsB7, 0, none, none, none, "simple"⟩ : SResult ℚ)]).Pairwise
        (fun a b => b.relevance_score ≤ a.relevance_score) :=
  ⟨by with_unfolding_all rfl,
    (C7_sorted_ties_stable qEnv { query := "zzz", search_mode := "simple" } qIdx7 qcOff
      [⟨qsA7, 0, none, none, none, "simple"⟩, ⟨qsB7, 0, none, none, none, "simple"⟩]
      0 (by with_unfolding_all rfl)).1⟩

/-- Claim C8, counterexample.  There is no hard cap of 100: a request
with limit 101 on a 101-session corpus returns 101 results. -/
theorem C8_counterexample :
    (resultIds (search_sessions qEnv
        { query := "", search_mode := "hybrid", limit := 101 }
        (IndexFile.ok qIdx101) qcOff).1).length = 101
    ∧ ¬ ((101 : Nat) ≤ 100) := by
  refine ⟨by decide, by decide⟩

/-- Claim C8, amended.  For every query, corpus and nonnegative
requested limit `k`, `|search(q, C, limit = k)| ≤ k`, and the default
limit is 5; there is no hard cap of 100 — larger limits are honored
as requested. -/
theorem C8_limit_bound {α : Type} [LinearOrderedField α]
    (env : Env α) (args : SearchArgs) (file : IndexFile α) (c : Collector α)
    (rs : List (SResult α)) (hk : 0 ≤ args.limit)
    (h : (search_sessions env args file c).1 = Except.ok rs) :
    rs.length ≤ args.limit.toNat
    ∧ ({ query := args.query } : SearchArgs).limit = 5 := by
  refine ⟨?_, rfl⟩
  match file with
  | IndexFile.missing =>
    have h0 : (search_sessions env args IndexFile.missing c).1 = Except.ok [] := rfl
    rw [h0] at h
    simp at h
    subst h
    simp
  | IndexFile.malformed err =>
    have h0 : (search_sessions env args (IndexFile.malformed err) c).1 =
      Except.error err := rfl
    rw [h0] at h
    exact absurd h (by simp)
  | IndexFile.ok idx =>
    rw [search_result_ok] at h
    rcases hr : resolveScored env args (filteredIndex args idx) with _ | mr
    · rw [hr] at h
      simp at h
      subst h
      simp
    · rw [hr] at h
      simp at h
      subst h
      rw [pySliceTo, if_pos hk]
      exact List.length_take_le _ _

/-- Witness for C8_limit_bound at a concrete input. -/
theorem C8_witness :
    (0 : Int) ≤ 5
    ∧ ((search_sessions qEnv { query := "auth", search_mode := "simple" }
        (IndexFile.ok qIdxNoStats) qcOff).1 =
      Except.ok [⟨qsB, 3/7, none, none, none, "simple"⟩,
                 ⟨qsA, 0, none, none, none, "simple"⟩])
    ∧ ([⟨qsB, (3/7 : ℚ), none, none, none, "simple"⟩,
        ⟨qsA, 0, none, none, none, "simple"⟩] : List (SResult ℚ)).length ≤
        (5 : Int).toNat :=
  ⟨by decide, by with_unfolding_all rfl,
    (C8_limit_bound qEnv { query := "auth", search_mode := "simple" }
      (IndexFile.ok qIdxNoStats) qcOff
      [⟨qsB, 3/7, none, none, none, "simple"⟩, ⟨qsA, 0, none, none, none, "simple"⟩]
      (by decide) (by with_unfolding_all rfl)).1⟩

/-- Claim C10, confirmed.  When the stored embedding matrix has exactly
one row per session of the full index and a hybrid (or auto) search
applies a filter that excludes at least one session, the row-count
check inside `semantic_search` runs against the filtered subset and
fails, dense scores are never used, and every returned result carries
BM25-only scoring (`search_mode = "bm25"`, no `semantic_score`). -/
theorem C10_rowcheck_on_filtered {α : Type} [LinearOrderedField α]
    (env : Env α) (args : SearchArgs) (idx : Index α) (c : Collector α)
    (meta : EmbeddingMeta) (M : List (List α)) (rs : List (SResult α))
    (hmeta : idx.embedding_index = some meta)
    (havail : env.embeddings_available = true)
    (hfile : env.embeddings_file = some M)
    (hrows : M.length = idx.sessions.length)
    (hfilter : (filteredSessions args idx.sessions).length < idx.sessions.length)
    (hmode : args.search_mode = "hybrid" ∨ args.search_mode = "auto")
    (h : (search_sessions env args (IndexFile.ok idx) c).1 = Except.ok rs) :
    semantic_search env args.query (filteredIndex args idx) = none
    ∧ ∀ r ∈ rs, r.search_mode = "bm25" ∧ r.semantic_score = none := by
  have hsem : semantic_search env args.query (filteredIndex args idx) = none := by
    have hne : M.length ≠ (filteredSessions args idx.sessions).length := by omega
    simp [semantic_search, havail, filteredIndex, hmeta, hfile, hne]
  refine ⟨hsem, ?_⟩
  have hhyb : hybrid_search env args.query (filteredIndex args idx) =
      bm25_search env args.query (filteredIndex args idx) :=
    hybrid_search_of_sem_none env args.query (filteredIndex args idx) hsem
  have hres : resolveScored env args (filteredIndex args idx) =
      some ("hybrid", bm25_search env args.query (filteredIndex args idx)) := by
    rcases hmode with hm | hm <;>
    · simp only [resolveScored, hm]
      rw [if_neg (by simp), if_neg (by simp), if_pos (by simp)]
      rw [if_pos]
      · rw [hhyb]
      · constructor
        constructor
        · show ((filteredIndex args idx).embedding_index).isSome = true
          rw [show (filteredIndex args idx).embedding_index = some meta from hmeta]
          rfl
        · exact havail
  rw [search_result_ok, hres] at h
  simp at h
  subst h
  intro r hrmem
  have h1 : r ∈ sortDesc (bm25_search env args.query (filteredIndex args idx)) :=
    (pySliceTo_front args.limit _).sublist.subset hrmem
  have h2 : r ∈ bm25_search env args.query (filteredIndex args idx) :=
    mem_sortDesc.mp h1
  rcases mem_of_forall₂_right
    (bm25_search_forall₂ env args.query (filteredIndex args idx)) h2 with ⟨s, hs⟩
  exact ⟨hs.2.2.1, hs.2.1⟩

/-- The hybrid-mode, session-filtered arguments of the C10 run. -/
def qArgs10 : SearchArgs :=
  { query := "q", session_filter := some "a", search_mode := "hybrid" }

/-- Witness for C10_rowcheck_on_filtered at a concrete input. -/
theorem C10_witness :
    qIdxEmb.embedding_index =
      some { embedding_file := "embeddings.npz", model := "all-MiniLM-L6-v2" }
    ∧ qEnvEmb.embeddings_file = some [[1], [1]]
    ∧ (filteredSessions qArgs10 qIdxEmb.sessions).length < qIdxEmb.sessions.length
    ∧ semantic_search qEnvEmb "q" (filteredIndex qArgs10 qIdxEmb) = none :=
  ⟨rfl, rfl, by decide,
    (C10_rowcheck_on_filtered qEnvEmb qArgs10
      qIdxEmb qcOff { embedding_file := "embeddings.npz", model := "all-MiniLM-L6-v2" }
      [[1], [1]] [⟨qsA, 0, some 0, none, some (1/2), "bm25"⟩]
      rfl rfl rfl (by decide) (by decide) (Or.inl rfl)
      (by with_unfolding_all rfl)).1⟩

end Recall
